import Mathlib

/-!
Shallow embedding of the scheduling core of the Google-Calendar-Assistant
repository, together with proofs of the specified properties.

Conventions of the embedding:
* Timestamps are minutes.  The free-slot / series-planner world
  (`app/services/free_slots.py`, `app/services/series_planner.py`,
  `app/bot/free_slots.py`) uses `Nat` minutes; the event-mutation world
  (`app/bot/events.py`) uses `Int` minutes because relative shifts may be
  negative.  A day is 1440 minutes; `datetime.replace(hour=h, minute=0)`
  becomes "start of the timestamp's day plus `h * 60`".
* Python `datetime` values parsed from backend payloads are modelled as
  already-parsed `Option` timestamps (`none` = missing or unparseable).
* Loops are modelled by structural recursion on an explicit fuel argument
  that strictly bounds the number of iterations of the Python loop (each
  iteration of the Python loop makes strict progress, so the fuel chosen at
  every call site is sufficient and the fuel-exhaustion branch is dead).
-/

/-! ### `app/services/free_slots.py` -/

/-- A free slot produced by `FreeSlotService.find_slots`; half-open interval
`[start, stop)` in minutes.  (`end` is a Lean keyword, so the field is
`stop`.) -/
structure FreeSlot where
  start : Nat
  stop : Nat
deriving DecidableEq, Repr

/-- Embedding of `FreeSlotService._is_free`: a candidate interval is free iff
no busy interval `b` satisfies `candidate_start < b.end and candidate_end >
b.start`. -/
def _is_free (candidate_start candidate_end : Nat) (busy : List (Nat × Nat)) : Bool :=
  busy.all fun b => !(decide (candidate_start < b.2) && decide (candidate_end > b.1))

/-- Minutes timestamp of `t`'s day at hour `h`, i.e. Python
`t.replace(hour=h, minute=0, second=0, microsecond=0)`. -/
def dayAtHour (t h : Nat) : Nat := t / 1440 * 1440 + h * 60

/-- Embedding of the inner candidate-scan loop of `find_slots`
(`while candidate_start + duration <= day_end`), stepping 30 minutes and
returning the first free candidate of the day, if any.  `fuel` bounds the
number of iterations (the Python loop advances 30 minutes per iteration). -/
def scanDay (busy : List (Nat × Nat)) (duration end_bound day_end : Nat) :
    Nat → Nat → Option FreeSlot
  | 0, _ => none
  | fuel + 1, candidate_start =>
    if candidate_start + duration ≤ day_end then
      if end_bound < candidate_start + duration then none
      else if _is_free candidate_start (candidate_start + duration) busy then
        some ⟨candidate_start, candidate_start + duration⟩
      else scanDay busy duration end_bound day_end fuel (candidate_start + 30)
    else none

/-- Embedding of the outer day-walking loop of `find_slots`
(`while cursor < end_bound and len(slots) < max_suggestions`).  `remaining` is
`max_suggestions - len(slots)`; `fuel` bounds the number of day iterations
(the cursor advances at least one minute per iteration). -/
def find_slots_loop (busy : List (Nat × Nat))
    (duration start_bound end_bound day_start_hour day_end_hour : Nat) :
    Nat → Nat → Nat → List FreeSlot
  | 0, _, _ => []
  | fuel + 1, cursor, remaining =>
    if cursor < end_bound ∧ 0 < remaining then
      let day_start := max (dayAtHour cursor day_start_hour) start_bound
      let day_end := min (dayAtHour cursor day_end_hour) end_bound
      let candidate_start := max cursor day_start
      let next_day := dayAtHour (cursor + 1440) day_start_hour
      let cursor' := max next_day start_bound
      match scanDay busy duration end_bound day_end
          (day_end + 1 - candidate_start) candidate_start with
      | some s =>
        s :: find_slots_loop busy duration start_bound end_bound
          day_start_hour day_end_hour fuel cursor' (remaining - 1)
      | none =>
        find_slots_loop busy duration start_bound end_bound
          day_start_hour day_end_hour fuel cursor' remaining
    else []

/-- Embedding of `FreeSlotService.find_slots`: walk day by day from
`date_from`, bound each day's window to the preferred hours (default
`[8, 20]`) clamped to `[date_from, date_to]`, accept at most one slot per day
(the earliest free 30-minute-aligned candidate), and stop after
`max_suggestions` slots or past `date_to`. -/
def find_slots (busy : List (Nat × Nat)) (duration date_from date_to : Nat)
    (preferred_start preferred_end : Option Nat) (max_suggestions : Nat) :
    List FreeSlot :=
  find_slots_loop busy duration date_from date_to
    (preferred_start.getD 8) (preferred_end.getD 20)
    (date_to + 1 - date_from) date_from max_suggestions

/-! ### `app/services/series_planner.py` -/

/-- Python `weekday()` (Monday = 0 … Sunday = 6) for a minutes timestamp.
Day 0 of the embedding's epoch is taken to be a Thursday (like the Unix
epoch), hence the offset 3. -/
def weekday (t : Nat) : Nat := (t / 1440 + 3) % 7

/-- Embedding of `blocks_needed = max(1, math.ceil(total_minutes /
block_minutes))` from `SeriesPlannerService.plan_series` (exact ceiling
division; callers guarantee `block_minutes > 0`). -/
def blocks_needed (total_minutes block_minutes : Nat) : Nat :=
  max 1 ((total_minutes + block_minutes - 1) / block_minutes)

/-- Embedding of the loop body of `SeriesPlannerService._filter_slots`:
drop slots ending after the deadline, drop weekend slots when weekends are
disallowed, and stop once `limit` slots have been kept. -/
def filter_slots_go (allow_weekends : Bool) (deadline limit : Nat) :
    List FreeSlot → List FreeSlot → List FreeSlot
  | [], filtered => filtered
  | slot :: rest, filtered =>
    if deadline < slot.stop then
      filter_slots_go allow_weekends deadline limit rest filtered
    else if !allow_weekends && decide (5 ≤ weekday slot.start) then
      filter_slots_go allow_weekends deadline limit rest filtered
    else
      let filtered' := filtered ++ [slot]
      if limit ≤ filtered'.length then filtered'
      else filter_slots_go allow_weekends deadline limit rest filtered'

/-- Embedding of `SeriesPlannerService._filter_slots`. -/
def _filter_slots (slots : List FreeSlot) (allow_weekends : Bool)
    (deadline limit : Nat) : List FreeSlot :=
  filter_slots_go allow_weekends deadline limit slots []

/-- Embedding of `SeriesPlanRequest` (series_planner.py). -/
structure SeriesPlanRequest where
  title : String := ""
  deadline : Nat
  total_minutes : Nat
  block_minutes : Nat
  preferred_start_hour : Option Nat := none
  preferred_end_hour : Option Nat := none
  allow_weekends : Bool := true
  description : Option String := none
deriving DecidableEq, Repr

/-- Embedding of `SeriesPlanBlock`. -/
structure SeriesPlanBlock where
  index : Nat
  label : String
  start : Nat
  stop : Nat
deriving DecidableEq, Repr

/-- Embedding of `SeriesPlanPreview`. -/
structure SeriesPlanPreview where
  request : SeriesPlanRequest
  blocks : List SeriesPlanBlock
  missing_blocks : Nat
  warnings : List String
deriving DecidableEq, Repr

/-- The arguments of the single SlotFinder call issued by `plan_series`
(recorded so that theorems can speak about what was requested). -/
structure FindSlotsCall where
  duration : Nat
  date_from : Nat
  date_to : Nat
  preferred_start : Option Nat
  preferred_end : Option Nat
  max_suggestions : Nat
deriving DecidableEq, Repr

/-- Embedding of the `for idx, slot in enumerate(filtered_slots[:blocks_needed])`
comprehension building `SeriesPlanBlock`s. -/
def label_blocks : Nat → List FreeSlot → List SeriesPlanBlock
  | _, [] => []
  | idx, slot :: rest =>
    ⟨idx, "Block " ++ toString (idx + 1), slot.start, slot.stop⟩ ::
      label_blocks (idx + 1) rest

/-- Embedding of `SeriesPlannerService.plan_series`.  The second component
records the SlotFinder calls made (empty on the precondition-error path, which
raises before any search).  The Python warning text is modelled by the marker
string "shortfall". -/
def plan_series (busy : List (Nat × Nat)) (now : Nat)
    (request : SeriesPlanRequest) :
    Except String SeriesPlanPreview × List FindSlotsCall :=
  if request.deadline ≤ now then (.error "deadline_passed", [])
  else
    let n := blocks_needed request.total_minutes request.block_minutes
    let call : FindSlotsCall :=
      { duration := request.block_minutes, date_from := now,
        date_to := request.deadline,
        preferred_start := request.preferred_start_hour,
        preferred_end := request.preferred_end_hour,
        max_suggestions := max (n * 3) 6 }
    let slots := find_slots busy request.block_minutes now request.deadline
      request.preferred_start_hour request.preferred_end_hour (max (n * 3) 6)
    let filtered := _filter_slots slots request.allow_weekends request.deadline n
    let missing := n - filtered.length
    let warnings := if missing ≠ 0 then ["shortfall"] else []
    (.ok { request := request, blocks := label_blocks 0 (filtered.take n),
           missing_blocks := missing, warnings := warnings }, [call])

/-- Database / calendar mutations performed by `commit_plan`, in order. -/
inductive CommitAction
  | create_plan_record
  | create_calendar_event (index : Nat)
  | add_block_record (index : Nat)
  | create_deadline_event
deriving DecidableEq, Repr

/-- Embedding of the per-block creation loop of `commit_plan`: each block
creates one calendar event then one block record; a failed creation raises,
leaving earlier creations in place. -/
def commit_blocks (create_ok : Nat → Bool) :
    List SeriesPlanBlock → List CommitAction → Bool × List CommitAction
  | [], log => (true, log)
  | b :: rest, log =>
    let log' := log ++ [CommitAction.create_calendar_event b.index]
    if create_ok b.index then
      commit_blocks create_ok rest (log' ++ [CommitAction.add_block_record b.index])
    else (false, log')

/-- Embedding of `SeriesPlannerService.commit_plan`.  `user` is the result of
the user lookup (a read, not logged), `create_ok` is the backend's outcome for
each block's event creation, `deadline_ok` the outcome of the deadline-marker
creation (whose failure is non-fatal).  The second component is the ordered
log of mutations actually performed. -/
def commit_plan (preview : SeriesPlanPreview) (user : Option Nat)
    (create_ok : Nat → Bool) (deadline_ok : Bool) :
    Except String (Option String) × List CommitAction :=
  if preview.blocks.isEmpty then (.error "no_blocks", [])
  else
    match user with
    | none => (.error "user_not_found", [])
    | some _ =>
      match commit_blocks create_ok preview.blocks [CommitAction.create_plan_record] with
      | (false, log) => (.error "create_failed", log)
      | (true, log) =>
        ((.ok (if deadline_ok then some "deadline_link" else none)),
          log ++ [CommitAction.create_deadline_event])

/-! ### `app/bot/events.py` -/

/-- A calendar event as seen by the bot handlers.  `start`/`stop` are the
results of `_parse_google_datetime` on the backend payloads (`none` when the
payload is missing or unparseable); `status` is the raw `status` field. -/
structure GEvent where
  id : String
  summary : String := ""
  status : Option String := none
  start : Option Int := none
  stop : Option Int := none
deriving DecidableEq, Repr

/-- The description of a blocking event returned by `_detect_conflict`
(Python returns `{"summary", "time", "event_id"}`; the formatted time string
is modelled by the pair of timestamps). -/
structure ConflictInfo where
  summary : String
  conflict_start : Int
  conflict_stop : Int
  event_id : String
deriving DecidableEq, Repr

/-- Python truthiness of `exclude_event_id` combined with the id equality
test: `if exclude_event_id and item.id == exclude_event_id`. -/
def excludedEvent (exclude_event_id : Option String) (id : String) : Bool :=
  match exclude_event_id with
  | none => false
  | some x => decide (x ≠ "") && decide (id = x)

/-- The strict-overlap test of `_detect_conflict`:
`start_dt < existing_end and end_dt > existing_start`. -/
def conflict_overlaps (start_dt end_dt existing_start existing_end : Int) : Bool :=
  decide (start_dt < existing_end) && decide (end_dt > existing_start)

/-- Embedding of the loop of `_detect_conflict` over the fetched events:
skip cancelled events, skip the excluded id, skip events without parseable
times, and return the description of the first strictly-overlapping event. -/
def _detect_conflict (events : List GEvent) (start_dt end_dt : Int)
    (exclude_event_id : Option String) : Option ConflictInfo :=
  match events with
  | [] => none
  | item :: rest =>
    if item.status = some "cancelled" then
      _detect_conflict rest start_dt end_dt exclude_event_id
    else if excludedEvent exclude_event_id item.id then
      _detect_conflict rest start_dt end_dt exclude_event_id
    else
      match item.start, item.stop with
      | some existing_start, some existing_stop =>
        if conflict_overlaps start_dt end_dt existing_start existing_stop then
          some ⟨item.summary, existing_start, existing_stop, item.id⟩
        else _detect_conflict rest start_dt end_dt exclude_event_id
      | _, _ => _detect_conflict rest start_dt end_dt exclude_event_id

/-- An event qualifies as blocking when it is not cancelled, not the excluded
id, and its (parseable) interval strictly overlaps the candidate. -/
def blocking (start_dt end_dt : Int) (exclude_event_id : Option String)
    (item : GEvent) : Bool :=
  !(decide (item.status = some "cancelled")) &&
  !(excludedEvent exclude_event_id item.id) &&
  match item.start, item.stop with
  | some existing_start, some existing_stop =>
    conflict_overlaps start_dt end_dt existing_start existing_stop
  | _, _ => false

/-- The description `_detect_conflict` builds for a blocking event. -/
def describe_event (item : GEvent) : Option ConflictInfo :=
  match item.start, item.stop with
  | some existing_start, some existing_stop =>
    some ⟨item.summary, existing_start, existing_stop, item.id⟩
  | _, _ => none

/-- The structured update patch handed to `_apply_event_update`
(`update_data` plus which keys are present).  `start` models a successfully
parsed absolute `"start"` value, `stop` a parsed `"end"` value. -/
structure UpdatePatch where
  start : Option Int := none
  stop : Option Int := none
  shift_minutes : Option Int := none
  duration_minutes : Option Int := none
  title : Option String := none
  description : Option String := none
  location : Option String := none
deriving DecidableEq, Repr

/-- Calendar day of a minutes timestamp (`datetime.date()`), floor division
so that negative timestamps still fall on the correct day. -/
def date_of (t : Int) : Int := Int.fdiv t 1440

/-- Time of day of a minutes timestamp, in minutes. -/
def time_of (t : Int) : Int := Int.emod t 1440

/-- Embedding of the time-resolution part of `_apply_event_update`
(events.py lines 1387-1419): absolute start (re-applying the original date
when the parsed start defaults to today but the event is on another day, and
preserving the original duration when no `"end"` is given), then absolute
end, then relative shift (skipped when an absolute time was given or the
shift is falsy), then new duration from the possibly shifted start. -/
def compute_new_times (now : Int) (original_start original_stop : Option Int)
    (u : UpdatePatch) : Option Int × Option Int :=
  let step1 : Option Int × Option Int × Bool :=
    match u.start with
    | none => (original_start, original_stop, false)
    | some parsed_start =>
      let ns : Int :=
        match original_start with
        | some os =>
          if date_of parsed_start = date_of now ∧ date_of os ≠ date_of now then
            date_of os * 1440 + time_of parsed_start
          else parsed_start
        | none => parsed_start
      let ne : Option Int :=
        match original_start, original_stop, u.stop with
        | some os, some oe, none => some (ns + (oe - os))
        | _, _, _ => original_stop
      (some ns, ne, true)
  let has_absolute_time := step1.2.2
  let ne2 : Option Int :=
    match u.stop with
    | some parsed_stop => some parsed_stop
    | none => step1.2.1
  let step3 : Option Int × Option Int :=
    match u.shift_minutes, original_start, original_stop with
    | some k, some os, some oe =>
      if k ≠ 0 ∧ has_absolute_time = false then (some (os + k), some (oe + k))
      else (step1.1, ne2)
    | _, _, _ => (step1.1, ne2)
  match u.duration_minutes, step3.1 with
  | some d, some ns => if d ≠ 0 then (step3.1, some (ns + d)) else step3
  | _, _ => step3

/-- Python truthiness of the optional `shift_minutes` value (`None` and `0`
are falsy). -/
def int_truthy : Option Int → Bool
  | none => false
  | some k => decide (k ≠ 0)

/-- Python `shift_minutes != 0` on the optional raw value (`None != 0` is
`True`). -/
def py_ne_zero : Option Int → Bool
  | none => true
  | some k => decide (k ≠ 0)

/-- Embedding of the conflict-check guard of `_apply_event_update`
(events.py lines 1452-1457): `not ignore_conflicts and new_start and new_end
and (not shift_minutes or shift_minutes != 0)`. -/
def conflict_check_run (ignore_conflicts : Bool) (u : UpdatePatch)
    (new_start new_stop : Option Int) : Bool :=
  !ignore_conflicts && new_start.isSome && new_stop.isSome &&
    (!(int_truthy u.shift_minutes) || py_ne_zero u.shift_minutes)

/-- The `update_kwargs` payload sent to the backend by `_apply_event_update`
(time and text fields; conference/color/reminder fields are orthogonal to the
claims and omitted). -/
structure UpdateKwargs where
  start : Option Int := none
  stop : Option Int := none
  summary : Option String := none
  description : Option String := none
  location : Option String := none
deriving DecidableEq, Repr

/-- Embedding of `_apply_event_update`: resolve the new interval, run the
conflict check (excluding the event's own id) when the guard holds, and
either raise `UpdateConflictDetected` (the `.error` case — no backend update
is issued) or return the update payload (the `.ok` case, which is sent to
`update_event`).  `fetched` is the backend's response to the event listing
around the new interval. -/
def _apply_event_update (now : Int) (fetched : List GEvent) (event_id : String)
    (original_start original_stop : Option Int) (u : UpdatePatch)
    (ignore_conflicts : Bool) : Except ConflictInfo UpdateKwargs :=
  let nt := compute_new_times now original_start original_stop u
  let kwargs : UpdateKwargs :=
    { start := nt.1, stop := nt.2, summary := u.title,
      description := u.description, location := u.location }
  if conflict_check_run ignore_conflicts u nt.1 nt.2 then
    match nt.1, nt.2 with
    | some a, some b =>
      match _detect_conflict fetched a b (some event_id) with
      | some conflict => .error conflict
      | none => .ok kwargs
    | _, _ => .ok kwargs
  else .ok kwargs

/-! ### `app/bot/context.py` — conversation state -/

/-- Embedding of `PendingCreateConflict` (draft + blocking-event info). -/
structure PendingCreateConflict where
  draft_summary : String
  draft_start : Int
  draft_stop : Int
  conflict : ConflictInfo
deriving DecidableEq, Repr

/-- Embedding of `PendingUpdateConflict` (event id, the full update payload,
the original event's interval, and the blocking-event info). -/
structure PendingUpdateConflict where
  event_id : String
  update : UpdatePatch
  original_start : Option Int := none
  original_stop : Option Int := none
  conflict : Option ConflictInfo := none
deriving DecidableEq, Repr

/-- Embedding of `PendingDeleteContext` / `PendingDeleteItem`. -/
structure PendingDeleteItem where
  event_id : String
  summary : String
deriving DecidableEq, Repr

/-- Embedding of `PendingUpdateListItem`. -/
structure PendingUpdateListItem where
  event_id : String
  summary : String
deriving DecidableEq, Repr

/-- Embedding of `PendingUpdateListContext`. -/
structure PendingUpdateListContext where
  items : List PendingUpdateListItem
  update_data : UpdatePatch
deriving DecidableEq, Repr

/-- The per-user conversation state slots relevant to pending confirmations
(`context.user_data` keys from `ContextKey`). -/
structure ConvState where
  pending_create_conflict : Option PendingCreateConflict := none
  pending_update_conflict : Option PendingUpdateConflict := none
  pending_delete : Option PendingDeleteItem := none
  pending_delete_list : List PendingDeleteItem := []
  pending_update_list : Option PendingUpdateListContext := none
  pending_update_detail : Option String := none
deriving DecidableEq, Repr

/-- Embedding of `set_pending_create_conflict` (setting `none` pops the
key). -/
def set_pending_create_conflict (st : ConvState)
    (v : Option PendingCreateConflict) : ConvState :=
  { st with pending_create_conflict := v }

/-- Embedding of `pop_pending_create_conflict` (read and clear). -/
def pop_pending_create_conflict (st : ConvState) :
    Option PendingCreateConflict × ConvState :=
  (st.pending_create_conflict, { st with pending_create_conflict := none })

/-- Embedding of `set_pending_update_conflict`. -/
def set_pending_update_conflict (st : ConvState)
    (v : Option PendingUpdateConflict) : ConvState :=
  { st with pending_update_conflict := v }

/-- Embedding of `pop_pending_update_conflict` (read and clear). -/
def pop_pending_update_conflict (st : ConvState) :
    Option PendingUpdateConflict × ConvState :=
  (st.pending_update_conflict, { st with pending_update_conflict := none })

/-- The exception handler of `handle_event_update` /
`handle_event_update_by_id`: on `UpdateConflictDetected` store the pending
update conflict (full patch + conflict info); on success leave the pending
slots unchanged. -/
def handle_update_result (st : ConvState) (event_id : String) (u : UpdatePatch)
    (original_start original_stop : Option Int)
    (r : Except ConflictInfo UpdateKwargs) : ConvState :=
  match r with
  | .error conflict =>
    set_pending_update_conflict st
      (some ⟨event_id, u, original_start, original_stop, some conflict⟩)
  | .ok _ => st

/-- Embedding of `apply_update_from_pending_conflict`: re-apply the stored
patch with `ignore_conflicts=True`. -/
def apply_update_from_pending_conflict (now : Int) (fetched : List GEvent)
    (p : PendingUpdateConflict) : Except ConflictInfo UpdateKwargs :=
  _apply_event_update now fetched p.event_id p.original_start p.original_stop
    p.update true

/-! ### `app/bot/handlers.py` — callback-query handler -/

/-- The callback-query payloads handled by `handle_callback_query`. -/
inductive CallbackData
  | confirm_delete
  | delete_index (i : Nat)
  | cancel_delete
  | update_index (i : Nat)
  | cancel_update
  | conflict_confirm
  | conflict_cancel
deriving DecidableEq, Repr

/-- Backend mutations issued by the callback handler. -/
inductive BotAction
  | delete_event (event_id : String)
  | update_event (event_id : String)
  | create_event (summary : String)
deriving DecidableEq, Repr

/-- The kind of reply sent back to the user by the callback handler. -/
inductive BotReply
  | state_lost
  | confirm_prompt
  | done
  | cancelled
  | no_conflict
deriving DecidableEq, Repr

/-- Embedding of `handle_callback_query`: for each callback payload, the new
conversation state, the backend mutations issued, and the reply shown.
The calendar/update sub-flows invoked on a valid selection are abstracted to
the single backend mutation they perform. -/
def handle_callback_query (st : ConvState) (data : CallbackData) :
    ConvState × List BotAction × BotReply :=
  match data with
  | .confirm_delete =>
    match st.pending_delete with
    | none => (st, [], .state_lost)
    | some pending =>
      ({ st with pending_delete := none }, [.delete_event pending.event_id], .done)
  | .delete_index i =>
    let pending_list := st.pending_delete_list
    match pending_list[i]? with
    | none => (st, [], .state_lost)
    | some item =>
      ({ st with pending_delete := some item }, [], .confirm_prompt)
  | .cancel_delete =>
    ({ st with pending_delete := none, pending_delete_list := [] }, [], .cancelled)
  | .update_index i =>
    let st1 := { st with pending_update_detail := none }
    match st.pending_update_list with
    | none => (st1, [], .state_lost)
    | some ctx =>
      match ctx.items[i]? with
      | none => (st1, [], .state_lost)
      | some item =>
        ({ st1 with pending_update_list := none },
          [.update_event item.event_id], .done)
  | .cancel_update =>
    ({ st with pending_update_list := none }, [], .cancelled)
  | .conflict_confirm =>
    match st.pending_create_conflict with
    | some payload =>
      ({ st with pending_create_conflict := none },
        [.create_event payload.draft_summary], .done)
    | none =>
      match st.pending_update_conflict with
      | some payload =>
        ({ st with pending_update_conflict := none },
          [.update_event payload.event_id], .done)
      | none => (st, [], .state_lost)
  | .conflict_cancel =>
    let had := st.pending_create_conflict.isSome || st.pending_update_conflict.isSome
    ({ st with pending_create_conflict := none, pending_update_conflict := none },
      [], if had then .cancelled else .no_conflict)

/-- User-flow operations that mutate the pending-conflict slots: the two
conflict handlers (`handle_create_event` storing a create conflict,
`handle_event_update` storing an update conflict) and the button callbacks. -/
inductive ConvOp
  | store_create_conflict (c : PendingCreateConflict)
  | store_update_conflict (u : PendingUpdateConflict)
  | callback (d : CallbackData)
deriving Repr

/-- One step of the conversation, projected to the state. -/
def apply_conv_op (st : ConvState) : ConvOp → ConvState
  | .store_create_conflict c => set_pending_create_conflict st (some c)
  | .store_update_conflict u => set_pending_update_conflict st (some u)
  | .callback d => (handle_callback_query st d).1

/-- A reachable state: the result of a sequence of operations. -/
def apply_conv_ops (st : ConvState) (ops : List ConvOp) : ConvState :=
  ops.foldl apply_conv_op st

/-- At most one of the two pending-conflict slots is occupied. -/
def at_most_one_pending_conflict (st : ConvState) : Bool :=
  st.pending_create_conflict.isNone || st.pending_update_conflict.isNone

/-! ### `app/bot/free_slots.py` — free-slot search handlers -/

/-- Embedding of `LastFreeSlotsRequest` (context.py).  The ISO date strings
stored by the Python code are modelled as already-parsed minute
timestamps. -/
structure LastFreeSlotsRequest where
  duration : Nat
  date_from : Nat
  date_to : Nat
  preferred_start : Option Nat := none
  preferred_end : Option Nat := none
  next_start : Option Nat := none
  cursor_history : List Nat := []
deriving DecidableEq, Repr

/-- Embedding of `LastFreeSlotsContext`. -/
structure LastFreeSlotsContext where
  slots : List FreeSlot
  request : LastFreeSlotsRequest
  awaiting_use : Bool := false
deriving DecidableEq, Repr

/-- Embedding of the search-and-record part of `handle_free_slots`
(free_slots.py lines 88-112): run the search with the default three
suggestions, set `next_start` to the last slot's end plus the 15-minute
buffer (or `date_from` when no slot was found), and start a fresh cursor
history at `date_from`. -/
def handle_free_slots (busy : List (Nat × Nat))
    (duration date_from date_to : Nat)
    (preferred_start preferred_end : Option Nat) : LastFreeSlotsContext :=
  let slots := find_slots busy duration date_from date_to
    preferred_start preferred_end 3
  let next_start :=
    match slots.getLast? with
    | some s => s.stop + 15
    | none => date_from
  { slots := slots,
    request := { duration := duration, date_from := date_from,
                 date_to := date_to, preferred_start := preferred_start,
                 preferred_end := preferred_end, next_start := some next_start,
                 cursor_history := [date_from] },
    awaiting_use := !slots.isEmpty }

/-- Replies of `handle_more_free_slots` in the "later" direction. -/
inductive MoreSlotsReply
  | no_later
  | none_found
  | page
deriving DecidableEq, Repr

/-- Embedding of the "later" branch of `handle_more_free_slots`
(free_slots.py lines 167-222): the lower bound of the new search is
`next_start` (falling back to the original `date_from`), the upper bound is
the original `date_to`, and the new lower bound is appended to the cursor
history; an out-of-range bound or an empty result leaves the recorded page
in place (an empty result only bumps `next_start` to `date_to`). -/
def handle_more_free_slots_later (busy : List (Nat × Nat))
    (info : LastFreeSlotsContext) : LastFreeSlotsContext × MoreSlotsReply :=
  let req := info.request
  let date_from := req.next_start.getD req.date_from
  let date_to := req.date_to
  let history_next := req.cursor_history ++ [date_from]
  if date_to ≤ date_from then (info, .no_later)
  else
    let slots := find_slots busy req.duration date_from date_to
      req.preferred_start req.preferred_end 3
    match slots.getLast? with
    | none =>
      ({ info with request := { req with next_start := some date_to } },
        .none_found)
    | some last_slot =>
      ({ slots := slots,
         request := { duration := req.duration, date_from := req.date_from,
                      date_to := req.date_to,
                      preferred_start := req.preferred_start,
                      preferred_end := req.preferred_end,
                      next_start := some (last_slot.stop + 15),
                      cursor_history := history_next },
         awaiting_use := !slots.isEmpty }, .page)

/-! ### Lemmas about the slot search -/

/-- Unfolding of `_is_free` to the overlap property. -/
theorem _is_free_iff (a b : Nat) (busy : List (Nat × Nat)) :
    _is_free a b busy = true ↔ ∀ p ∈ busy, ¬(a < p.2 ∧ p.1 < b) := by
  constructor
  · intro h p hp hover
    have hb := List.all_eq_true.mp h p hp
    simp only [Bool.not_eq_true', Bool.and_eq_false_iff, decide_eq_false_iff_not] at hb
    omega
  · intro h
    apply List.all_eq_true.mpr
    intro p hp
    have hb := h p hp
    simp only [Bool.not_eq_true', Bool.and_eq_false_iff, decide_eq_false_iff_not]
    omega

theorem cursor_lt_next_day (cursor hS : Nat) :
    cursor < dayAtHour (cursor + 1440) hS := by
  unfold dayAtHour
  omega

theorem dayAtHour_lt_next (cursor hS hE : Nat) (h : hE ≤ 23) :
    dayAtHour cursor hE < dayAtHour (cursor + 1440) hS := by
  unfold dayAtHour
  omega

/-- Soundness of the inner scan: an accepted slot has exactly the requested
duration, is free of the busy intervals, starts no earlier than the scan
start, and ends within the day window. -/
theorem scanDay_sound (busy : List (Nat × Nat)) (duration end_bound day_end : Nat) :
    ∀ fuel candidate_start s,
      scanDay busy duration end_bound day_end fuel candidate_start = some s →
      s.stop = s.start + duration ∧ _is_free s.start s.stop busy = true ∧
      candidate_start ≤ s.start ∧ s.start + duration ≤ day_end := by
  intro fuel
  induction fuel with
  | zero => intro c s h; simp [scanDay] at h
  | succ n ih =>
    intro c s h
    simp only [scanDay] at h
    by_cases h1 : c + duration ≤ day_end
    · rw [if_pos h1] at h
      by_cases h2 : end_bound < c + duration
      · rw [if_pos h2] at h; exact absurd h (by simp)
      · rw [if_neg h2] at h
        by_cases h3 : _is_free c (c + duration) busy = true
        · rw [if_pos h3] at h
          obtain rfl : FreeSlot.mk c (c + duration) = s := Option.some_injective _ h
          exact ⟨rfl, h3, le_refl _, h1⟩
        · rw [if_neg h3] at h
          obtain ⟨hd, hf, hc, hb⟩ := ih (c + 30) s h
          exact ⟨hd, hf, by omega, hb⟩
    · rw [if_neg h1] at h; exact absurd h (by simp)

/-- Soundness invariant of the day-walking loop: every returned slot has
exactly the requested duration, is free of the busy intervals, and starts at
or after the cursor; the list holds at most `remaining` slots; and, for a
valid Python day-end hour, starts strictly increase (earliest first). -/
theorem find_slots_loop_sound (busy : List (Nat × Nat))
    (duration start_bound end_bound day_start_hour day_end_hour : Nat)
    (hhE : day_end_hour ≤ 23) :
    ∀ fuel cursor remaining,
      (∀ s ∈ find_slots_loop busy duration start_bound end_bound
          day_start_hour day_end_hour fuel cursor remaining,
        s.stop = s.start + duration ∧ _is_free s.start s.stop busy = true ∧
          cursor ≤ s.start) ∧
      (find_slots_loop busy duration start_bound end_bound
          day_start_hour day_end_hour fuel cursor remaining).length ≤ remaining ∧
      List.Chain' (fun a b : FreeSlot => a.start < b.start)
        (find_slots_loop busy duration start_bound end_bound
          day_start_hour day_end_hour fuel cursor remaining) := by
  intro fuel
  induction fuel with
  | zero => intro cursor remaining; simp [find_slots_loop]
  | succ n ih =>
    intro cursor remaining
    have hdayE_lt : min (dayAtHour cursor day_end_hour) end_bound <
        max (dayAtHour (cursor + 1440) day_start_hour) start_bound := by
      have := dayAtHour_lt_next cursor day_start_hour day_end_hour hhE
      omega
    have hcur_le : cursor ≤
        max (dayAtHour (cursor + 1440) day_start_hour) start_bound := by
      have := cursor_lt_next_day cursor day_start_hour
      omega
    by_cases hc : cursor < end_bound ∧ 0 < remaining
    · simp only [find_slots_loop]
      rw [if_pos hc]
      split
      · rename_i s hsd
        obtain ⟨hdur, hfree, hge, hend⟩ := scanDay_sound _ _ _ _ _ _ _ hsd
        obtain ⟨hmem, hlen, hch⟩ :=
          ih (max (dayAtHour (cursor + 1440) day_start_hour) start_bound)
            (remaining - 1)
        refine ⟨?_, ?_, ?_⟩
        · intro t ht
          rcases List.mem_cons.mp ht with rfl | ht'
          · refine ⟨hdur, hfree, ?_⟩
            have : cursor ≤ max cursor
                (max (dayAtHour cursor day_start_hour) start_bound) :=
              le_max_left _ _
            omega
          · obtain ⟨h1, h2, h3⟩ := hmem t ht'
            exact ⟨h1, h2, le_trans hcur_le h3⟩
        · simp only [List.length_cons]
          omega
        · refine List.chain'_cons'.mpr ⟨?_, hch⟩
          intro b hb
          obtain ⟨_, _, hble⟩ := hmem b (List.mem_of_mem_head? hb)
          omega
      · rename_i hsd
        obtain ⟨hmem, hlen, hch⟩ :=
          ih (max (dayAtHour (cursor + 1440) day_start_hour) start_bound)
            remaining
        refine ⟨?_, hlen, hch⟩
        intro t ht
        obtain ⟨h1, h2, h3⟩ := hmem t ht
        exact ⟨h1, h2, le_trans hcur_le h3⟩
    · simp only [find_slots_loop]
      rw [if_neg hc]
      simp

/-- Claim C1: for every SlotFinder search, every FreeSlot in the returned
list satisfies end - start == the requested duration and does not overlap
(by strict half-open comparison) any busy interval fetched for the search;
the list is ordered earliest-first and its length is at most
max_suggestions.  The hypothesis restricts the preferred end hour to the
range Python's `datetime.replace(hour=...)` accepts. -/
theorem find_slots_spec (busy : List (Nat × Nat))
    (duration date_from date_to : Nat)
    (preferred_start preferred_end : Option Nat) (max_suggestions : Nat)
    (hpe : ∀ h, preferred_end = some h → h ≤ 23) :
    (∀ s ∈ find_slots busy duration date_from date_to preferred_start
        preferred_end max_suggestions,
      s.stop - s.start = duration ∧ s.stop = s.start + duration ∧
        ∀ p ∈ busy, ¬(s.start < p.2 ∧ p.1 < s.stop)) ∧
    List.Chain' (fun a b : FreeSlot => a.start < b.start)
      (find_slots busy duration date_from date_to preferred_start
        preferred_end max_suggestions) ∧
    (find_slots busy duration date_from date_to preferred_start
        preferred_end max_suggestions).length ≤ max_suggestions := by
  have hhE : preferred_end.getD 20 ≤ 23 := by
    cases preferred_end with
    | none => norm_num
    | some h => simpa using hpe h rfl
  obtain ⟨hmem, hlen, hch⟩ := find_slots_loop_sound busy duration date_from
    date_to (preferred_start.getD 8) (preferred_end.getD 20) hhE
    (date_to + 1 - date_from) date_from max_suggestions
  simp only [find_slots]
  refine ⟨?_, hch, hlen⟩
  intro s hs
  obtain ⟨h1, h2, _⟩ := hmem s hs
  exact ⟨by omega, h1, (_is_free_iff s.start s.stop busy).mp h2⟩

/-- Witness for C1 at a concrete input: a one-hour busy block on the first
day, a 30-minute request over a half-open day range. -/
theorem find_slots_spec_witness :
    (∀ h, (none : Option Nat) = some h → h ≤ 23) ∧
    (find_slots [(600, 660)] 30 540 720 none none 3).length ≤ 3 := by
  refine ⟨?_, ?_⟩
  · intro h hh
    cases hh
  · exact (find_slots_spec [(600, 660)] 30 540 720 none none 3
      (fun _ hh => Option.noConfusion hh)).2.2

/-! ### Lemmas about conflict detection -/

/-- A blocking event always has parseable times, so its description exists. -/
theorem describe_isSome_of_blocking (start_dt end_dt : Int)
    (exclude_event_id : Option String) (item : GEvent)
    (h : blocking start_dt end_dt exclude_event_id item = true) :
    (describe_event item).isSome := by
  rcases hstart : item.start with _ | es
  · simp [blocking, hstart] at h
  · rcases hstop : item.stop with _ | ee
    · simp [blocking, hstart, hstop] at h
    · simp [describe_event, hstart, hstop]

/-- The detector loop returns the description of the first blocking event of
the list, in backend order. -/
theorem _detect_conflict_eq_find (events : List GEvent) (start_dt end_dt : Int)
    (exclude_event_id : Option String) :
    _detect_conflict events start_dt end_dt exclude_event_id
      = (events.find? (blocking start_dt end_dt exclude_event_id)).bind
          describe_event := by
  induction events with
  | nil => simp [_detect_conflict]
  | cons item rest ih =>
    by_cases hb : blocking start_dt end_dt exclude_event_id item = true
    · have h1 : ¬ item.status = some "cancelled" := by
        intro hc
        simp [blocking, hc] at hb
      have h2 : excludedEvent exclude_event_id item.id = false := by
        cases h : excludedEvent exclude_event_id item.id
        · rfl
        · simp [blocking, h] at hb
      rw [List.find?_cons_of_pos _ hb]
      rcases hstart : item.start with _ | es
      · simp [blocking, hstart] at hb
      · rcases hstop : item.stop with _ | ee
        · simp [blocking, hstart, hstop] at hb
        · have hov : conflict_overlaps start_dt end_dt es ee = true := by
            simpa [blocking, h1, h2, hstart, hstop] using hb
          simp [_detect_conflict, h1, h2, hstart, hstop, hov, describe_event]
    · have hbf : blocking start_dt end_dt exclude_event_id item = false :=
        Bool.eq_false_iff.mpr hb
      rw [List.find?_cons_of_neg _ hb, ← ih]
      simp only [_detect_conflict]
      by_cases h1 : item.status = some "cancelled"
      · rw [if_pos h1]
      · rw [if_neg h1]
        by_cases h2 : excludedEvent exclude_event_id item.id = true
        · rw [if_pos h2]
        · rw [if_neg h2]
          rcases hstart : item.start with _ | es
          · simp [hstart]
          · rcases hstop : item.stop with _ | ee
            · simp [hstart, hstop]
            · have hov : conflict_overlaps start_dt end_dt es ee = false := by
                cases h : conflict_overlaps start_dt end_dt es ee
                · rfl
                · exfalso
                  have h2f : excludedEvent exclude_event_id item.id = false :=
                    Bool.eq_false_iff.mpr h2
                  simp [blocking, hstart, hstop, h, h1, h2f] at hbf
              simp [hstart, hstop, hov]

/-- Claim C2: conflict detection for a candidate `[start_dt, end_dt)` returns
a blocking-event description iff some fetched event that is not cancelled and
not the excluded id has a (parseable) interval strictly overlapping the
candidate; the first such event in backend order is the one returned; and two
back-to-back intervals sharing a boundary instant never overlap. -/
theorem _detect_conflict_spec (events : List GEvent) (start_dt end_dt : Int)
    (exclude_event_id : Option String) :
    _detect_conflict events start_dt end_dt exclude_event_id
      = (events.find? (blocking start_dt end_dt exclude_event_id)).bind
          describe_event ∧
    ((_detect_conflict events start_dt end_dt exclude_event_id).isSome ↔
      ∃ item ∈ events, blocking start_dt end_dt exclude_event_id item = true) ∧
    (∀ existing_stop,
      conflict_overlaps start_dt end_dt end_dt existing_stop = false) ∧
    (∀ existing_start,
      conflict_overlaps start_dt end_dt existing_start start_dt = false) := by
  refine ⟨_detect_conflict_eq_find events start_dt end_dt exclude_event_id,
    ?_, ?_, ?_⟩
  · rw [_detect_conflict_eq_find]
    constructor
    · intro h
      cases hf : events.find? (blocking start_dt end_dt exclude_event_id) with
      | none => rw [hf] at h; simp at h
      | some it =>
        exact ⟨it, List.mem_of_find?_eq_some hf, List.find?_some hf⟩
    · rintro ⟨it, hmem, hp⟩
      have hex : (events.find? (blocking start_dt end_dt exclude_event_id)).isSome :=
        List.find?_isSome.mpr ⟨it, hmem, hp⟩
      cases hf : events.find? (blocking start_dt end_dt exclude_event_id) with
      | none => rw [hf] at hex; simp at hex
      | some x =>
        have hpx := List.find?_some hf
        simpa using describe_isSome_of_blocking _ _ _ _ hpx
  · intro existing_stop
    simp [conflict_overlaps]
  · intro existing_start
    simp [conflict_overlaps]

/-! ### Lemmas about the series planner -/

/-- Every slot kept by the filter either was already accumulated or ends by
the deadline and (when weekends are disallowed) starts on a weekday. -/
theorem filter_slots_go_mem (allow_weekends : Bool) (deadline limit : Nat) :
    ∀ xs acc s, s ∈ filter_slots_go allow_weekends deadline limit xs acc →
      s ∈ acc ∨ (s.stop ≤ deadline ∧
        (allow_weekends = false → weekday s.start < 5)) := by
  intro xs
  induction xs with
  | nil => intro acc s h; exact Or.inl h
  | cons slot rest ih =>
    intro acc s h
    have hkeep : ¬ deadline < slot.stop →
        ¬ (!allow_weekends && decide (5 ≤ weekday slot.start)) = true →
        slot.stop ≤ deadline ∧
          (allow_weekends = false → weekday slot.start < 5) := by
      intro h1 h2
      refine ⟨by omega, ?_⟩
      intro ha
      subst ha
      by_contra hge
      push_neg at hge
      exact h2 (by simp [hge])
    simp only [filter_slots_go] at h
    by_cases h1 : deadline < slot.stop
    · rw [if_pos h1] at h
      exact ih acc s h
    · rw [if_neg h1] at h
      by_cases h2 : (!allow_weekends && decide (5 ≤ weekday slot.start)) = true
      · rw [if_pos h2] at h
        exact ih acc s h
      · rw [if_neg h2] at h
        by_cases h3 : limit ≤ (acc ++ [slot]).length
        · rw [if_pos h3] at h
          rcases List.mem_append.mp h with ha | hs
          · exact Or.inl ha
          · right
            have hss : s = slot := by simpa using hs
            subst hss
            exact hkeep h1 h2
        · rw [if_neg h3] at h
          rcases ih (acc ++ [slot]) s h with ha | hgood
          · rcases List.mem_append.mp ha with h4 | h5
            · exact Or.inl h4
            · right
              have hss : s = slot := by simpa using h5
              subst hss
              exact hkeep h1 h2
          · exact Or.inr hgood

/-- The filter never keeps more than `limit` slots (starting below the
limit). -/
theorem filter_slots_go_length (allow_weekends : Bool) (deadline limit : Nat) :
    ∀ xs acc, acc.length < limit →
      (filter_slots_go allow_weekends deadline limit xs acc).length ≤ limit := by
  intro xs
  induction xs with
  | nil => intro acc h; simpa [filter_slots_go] using le_of_lt h
  | cons slot rest ih =>
    intro acc hacc
    simp only [filter_slots_go]
    by_cases h1 : deadline < slot.stop
    · rw [if_pos h1]
      exact ih acc hacc
    · rw [if_neg h1]
      by_cases h2 : (!allow_weekends && decide (5 ≤ weekday slot.start)) = true
      · rw [if_pos h2]
        exact ih acc hacc
      · rw [if_neg h2]
        by_cases h3 : limit ≤ (acc ++ [slot]).length
        · rw [if_pos h3]
          simp only [List.length_append, List.length_cons, List.length_nil]
          omega
        · rw [if_neg h3]
          apply ih
          simp only [List.length_append, List.length_cons, List.length_nil] at h3 ⊢
          omega

/-- Every labelled block carries the interval of a slot of the input list. -/
theorem label_blocks_mem :
    ∀ (idx : Nat) (xs : List FreeSlot) (b : SeriesPlanBlock),
      b ∈ label_blocks idx xs →
      ∃ s ∈ xs, b.start = s.start ∧ b.stop = s.stop := by
  intro idx xs
  induction xs generalizing idx with
  | nil => intro b h; simp [label_blocks] at h
  | cons slot rest ih =>
    intro b h
    simp only [label_blocks] at h
    rcases List.mem_cons.mp h with rfl | h'
    · exact ⟨slot, List.mem_cons_self _ _, rfl, rfl⟩
    · obtain ⟨s, hs, he⟩ := ih (idx + 1) b h'
      exact ⟨s, List.mem_cons_of_mem _ hs, he⟩

/-- Labelling preserves length. -/
theorem label_blocks_length :
    ∀ (idx : Nat) (xs : List FreeSlot),
      (label_blocks idx xs).length = xs.length := by
  intro idx xs
  induction xs generalizing idx with
  | nil => simp [label_blocks]
  | cons slot rest ih => simp [label_blocks, ih]

/-- Claim C3: `plan_series` computes `blocks_needed` as the exact ceiling of
`total_minutes / block_minutes`, issues exactly one SlotFinder call for
`blocks_needed * 3` candidates (minimum 6) over `[now, deadline]`, keeps only
slots ending by the deadline and (when weekends are disallowed) starting on a
weekday, truncates to `blocks_needed`, and on a shortfall still returns the
partial preview with `missing_blocks` equal to the shortfall and a warning
recorded, rather than failing. -/
theorem plan_series_spec (busy : List (Nat × Nat)) (now : Nat)
    (request : SeriesPlanRequest)
    (htot : 0 < request.total_minutes) (hblk : 0 < request.block_minutes)
    (hnow : now < request.deadline) :
    blocks_needed request.total_minutes request.block_minutes
      = (request.total_minutes + request.block_minutes - 1)
          / request.block_minutes ∧
    (plan_series busy now request).2
      = [{ duration := request.block_minutes, date_from := now,
           date_to := request.deadline,
           preferred_start := request.preferred_start_hour,
           preferred_end := request.preferred_end_hour,
           max_suggestions := max
             (blocks_needed request.total_minutes request.block_minutes * 3)
             6 }] ∧
    ∃ p, (plan_series busy now request).1 = .ok p ∧
      p.blocks.length ≤ blocks_needed request.total_minutes
        request.block_minutes ∧
      (∀ b ∈ p.blocks, b.stop ≤ request.deadline ∧
        (request.allow_weekends = false → weekday b.start < 5)) ∧
      p.missing_blocks
        = blocks_needed request.total_minutes request.block_minutes
            - p.blocks.length ∧
      (p.missing_blocks ≠ 0 → p.warnings ≠ []) := by
  have hne : ¬ request.deadline ≤ now := by omega
  have hceil : blocks_needed request.total_minutes request.block_minutes
      = (request.total_minutes + request.block_minutes - 1)
          / request.block_minutes := by
    have h1 : 1 ≤ (request.total_minutes + request.block_minutes - 1)
        / request.block_minutes :=
      (Nat.le_div_iff_mul_le hblk).mpr (by omega)
    unfold blocks_needed
    omega
  have hn1 : 0 < blocks_needed request.total_minutes request.block_minutes := by
    unfold blocks_needed
    omega
  refine ⟨hceil, ?_, ?_⟩
  · simp only [plan_series]
    rw [if_neg hne]
  · simp only [plan_series]
    rw [if_neg hne]
    refine ⟨_, rfl, ?_, ?_, ?_, ?_⟩
    · rw [label_blocks_length]
      have := List.length_take_le
        (blocks_needed request.total_minutes request.block_minutes)
        (_filter_slots
          (find_slots busy request.block_minutes now request.deadline
            request.preferred_start_hour request.preferred_end_hour
            (max (blocks_needed request.total_minutes request.block_minutes * 3) 6))
          request.allow_weekends request.deadline
          (blocks_needed request.total_minutes request.block_minutes))
      exact this
    · intro b hb
      obtain ⟨s, hs, hbs, hbe⟩ := label_blocks_mem _ _ _ hb
      have hsf : s ∈ _filter_slots
          (find_slots busy request.block_minutes now request.deadline
            request.preferred_start_hour request.preferred_end_hour
            (max (blocks_needed request.total_minutes request.block_minutes * 3) 6))
          request.allow_weekends request.deadline
          (blocks_needed request.total_minutes request.block_minutes) :=
        List.take_subset _ _ hs
      rcases filter_slots_go_mem _ _ _ _ _ _ hsf with hempty | hgood
      · simp at hempty
      · rw [hbs, hbe]
        exact hgood
    · have hflen : (_filter_slots
          (find_slots busy request.block_minutes now request.deadline
            request.preferred_start_hour request.preferred_end_hour
            (max (blocks_needed request.total_minutes request.block_minutes * 3) 6))
          request.allow_weekends request.deadline
          (blocks_needed request.total_minutes request.block_minutes)).length
            ≤ blocks_needed request.total_minutes request.block_minutes :=
        filter_slots_go_length _ _ _ _ [] (by simpa using hn1)
      dsimp only
      rw [label_blocks_length, List.length_take]
      omega
    · intro hmiss
      simp only [ne_eq, hmiss, if_neg]
      simp [hmiss]

/-- Witness for C3 at the spec's own example: `total_minutes = 130`,
`block_minutes = 60` gives `blocks_needed = 3`. -/
theorem plan_series_spec_witness :
    0 < (130 : Nat) ∧ 0 < (60 : Nat) ∧ (480 : Nat) < 3360 ∧
      blocks_needed 130 60 = 3 := by
  refine ⟨by norm_num, by norm_num, by norm_num, ?_⟩
  have h := (plan_series_spec [] 480
    { deadline := 3360, total_minutes := 130, block_minutes := 60 }
    (by norm_num) (by norm_num) (by norm_num)).1
  rw [h]
  rfl

/-- Claim C9: a series-plan request whose deadline is at or before the
current time fails with a precondition error before any slot search or
backend call is made (the call log is empty), and is never reported as a
shortfall preview. -/
theorem plan_series_deadline_precondition (busy : List (Nat × Nat)) (now : Nat)
    (request : SeriesPlanRequest) (h : request.deadline ≤ now) :
    (plan_series busy now request).1 = .error "deadline_passed" ∧
    (plan_series busy now request).2 = [] := by
  simp [plan_series, h]

/-- Witness for C9: a request whose deadline equals the planning time. -/
theorem plan_series_deadline_precondition_witness :
    ({ deadline := 480, total_minutes := 130, block_minutes := 60 }
        : SeriesPlanRequest).deadline ≤ 480 ∧
    (plan_series [] 480
      { deadline := 480, total_minutes := 130, block_minutes := 60 }).1
        = .error "deadline_passed" := by
  refine ⟨by norm_num, ?_⟩
  exact (plan_series_deadline_precondition [] 480
    { deadline := 480, total_minutes := 130, block_minutes := 60 }
    (by norm_num)).1

/-- Claim C10: committing a preview whose block list is empty fails before
creating any plan record, calendar event, or deadline-marker event — the
mutation log is empty on this error path. -/
theorem commit_plan_empty_preview (preview : SeriesPlanPreview)
    (user : Option Nat) (create_ok : Nat → Bool) (deadline_ok : Bool)
    (h : preview.blocks = []) :
    (commit_plan preview user create_ok deadline_ok).1 = .error "no_blocks" ∧
    (commit_plan preview user create_ok deadline_ok).2 = [] := by
  simp [commit_plan, h]

/-- Witness for C10: an all-shortfall preview with no blocks. -/
theorem commit_plan_empty_preview_witness :
    ({ request := { deadline := 480, total_minutes := 130, block_minutes := 60 },
       blocks := [], missing_blocks := 3, warnings := ["shortfall"] }
        : SeriesPlanPreview).blocks = [] ∧
    (commit_plan
      { request := { deadline := 480, total_minutes := 130, block_minutes := 60 },
        blocks := [], missing_blocks := 3, warnings := ["shortfall"] }
      (some 1) (fun _ => true) true).2 = [] := by
  refine ⟨rfl, ?_⟩
  exact (commit_plan_empty_preview _ (some 1) (fun _ => true) true rfl).2

/-! ### Lemmas about event updates -/

/-- Claim C5: applying a relative shift of +60 minutes and then a relative
shift of -60 minutes (each via the `shift_minutes` patch path, with no
absolute time or duration change) restores the event's original interval,
for every event with a defined original start and end. -/
theorem shift_round_trip (now1 now2 s e : Int) :
    compute_new_times now1 (some s) (some e) { shift_minutes := some 60 }
      = (some (s + 60), some (e + 60)) ∧
    compute_new_times now2 (some (s + 60)) (some (e + 60))
      { shift_minutes := some (-60) } = (some s, some e) := by
  constructor
  · simp [compute_new_times]
  · simp [compute_new_times]

/-- The last conjunct of the conflict-check guard,
`(not shift_minutes or shift_minutes != 0)`, is true for every value of
`shift_minutes` (Python `None != 0` is `True`): the guard never restricts
the check. -/
theorem conflict_guard_tail (sh : Option Int) :
    (!(int_truthy sh) || py_ne_zero sh) = true := by
  cases sh with
  | none => rfl
  | some k =>
    by_cases hk : k = 0
    · subst hk
      simp [int_truthy, py_ne_zero]
    · simp [int_truthy, py_ne_zero, hk]

/-- Claim C4 (amended): the conflict check (excluding the event's own id) is
run exactly when `ignore_conflicts` is not set and the computed new start and
end are both defined — even when the new interval equals the original one
(the source's `(not shift_minutes or shift_minutes != 0)` conjunct is a
tautology).  A detected conflict aborts the mutation (`.error`, so no backend
update call is made); the handler stores the blocking event's description
together with the full patch, and confirming re-applies the identical patch
with conflicts ignored. -/
theorem _apply_event_update_conflict_spec (now : Int) (fetched : List GEvent)
    (event_id : String) (original_start original_stop : Option Int)
    (u : UpdatePatch) (st : ConvState) (oc : Option ConflictInfo) :
    (conflict_check_run false u
        (compute_new_times now original_start original_stop u).1
        (compute_new_times now original_start original_stop u).2
      = ((compute_new_times now original_start original_stop u).1.isSome &&
         (compute_new_times now original_start original_stop u).2.isSome)) ∧
    (∀ a b : Option Int, conflict_check_run true u a b = false) ∧
    (∀ a b c, compute_new_times now original_start original_stop u
        = (some a, some b) →
      _detect_conflict fetched a b (some event_id) = some c →
      _apply_event_update now fetched event_id original_start original_stop u
        false = .error c) ∧
    (∀ c, _apply_event_update now fetched event_id original_start
        original_stop u false = .error c →
      ∃ a b, compute_new_times now original_start original_stop u
          = (some a, some b) ∧
        _detect_conflict fetched a b (some event_id) = some c) ∧
    (∀ c, (handle_update_result st event_id u original_start original_stop
        (.error c)).pending_update_conflict
      = some ⟨event_id, u, original_start, original_stop, some c⟩) ∧
    (apply_update_from_pending_conflict now fetched
        ⟨event_id, u, original_start, original_stop, oc⟩
      = _apply_event_update now fetched event_id original_start original_stop
          u true) := by
  refine ⟨?_, ?_, ?_, ?_, ?_, rfl⟩
  · simp [conflict_check_run, conflict_guard_tail]
  · intro a b
    simp [conflict_check_run]
  · intro a b c hnt hdet
    have hg : conflict_check_run false u (some a) (some b) = true := by
      simp [conflict_check_run, conflict_guard_tail]
    simp [_apply_event_update, hnt, hg, hdet]
  · intro c h
    by_cases hg : conflict_check_run false u
        (compute_new_times now original_start original_stop u).1
        (compute_new_times now original_start original_stop u).2 = true
    · have h1 : ((compute_new_times now original_start original_stop u).1.isSome &&
          (compute_new_times now original_start original_stop u).2.isSome) = true := by
        simp only [conflict_check_run, conflict_guard_tail] at hg
        simpa using hg
      obtain ⟨ha, hb⟩ := Bool.and_eq_true_iff.mp h1
      obtain ⟨a, hae⟩ := Option.isSome_iff_exists.mp ha
      obtain ⟨b, hbe⟩ := Option.isSome_iff_exists.mp hb
      have hg' : conflict_check_run false u (some a) (some b) = true := by
        rw [hae, hbe] at hg
        exact hg
      refine ⟨a, b, ?_, ?_⟩
      · rw [Prod.ext_iff]
        exact ⟨hae, hbe⟩
      · cases hdet : _detect_conflict fetched a b (some event_id) with
        | none =>
          exfalso
          simp [_apply_event_update, hg', hae, hbe, hdet] at h
        | some c' =>
          have happ : _apply_event_update now fetched event_id original_start
              original_stop u false = .error c' := by
            simp [_apply_event_update, hg', hae, hbe, hdet]
          rw [happ] at h
          exact congrArg some (by injection h)
    · exfalso
      simp [_apply_event_update, hg] at h
  · intro c
    rfl

/-- Counterexample for C4 as stated: a title-only patch on an event with a
defined interval leaves the interval unchanged, yet the conflict check still
runs (with `ignore_conflicts` unset), so the check is not run "exactly when
the new interval differs from the original". -/
theorem _apply_event_update_check_counterexample :
    compute_new_times 0 (some 600) (some 660) { title := some "t" }
      = (some 600, some 660) ∧
    conflict_check_run false { title := some "t" } (some 600) (some 660)
      = true ∧
    ¬ (conflict_check_run false { title := some "t" }
          (compute_new_times 0 (some 600) (some 660) { title := some "t" }).1
          (compute_new_times 0 (some 600) (some 660) { title := some "t" }).2
          = true
        ↔ compute_new_times 0 (some 600) (some 660) { title := some "t" }
            ≠ ((some 600 : Option Int), (some 660 : Option Int))) := by
  refine ⟨by decide, by decide, by decide⟩

/-- Claim C6: after a search whose last returned slot ends at time T, the
recorded next lower bound is T + 15 minutes; requesting "later" re-runs the
search from that bound, keeping the original upper bound, and pushes the
new page's start onto the cursor history. -/
theorem later_navigation_spec (busy busy' : List (Nat × Nat))
    (duration date_from date_to : Nat) (ps pe : Option Nat) :
    (∀ last_slot,
      (handle_free_slots busy duration date_from date_to ps pe).slots.getLast?
          = some last_slot →
      (handle_free_slots busy duration date_from date_to ps pe).request.next_start
          = some (last_slot.stop + 15)) ∧
    (∀ (info : LastFreeSlotsContext) (v : Nat),
      info.request.next_start = some v →
      v < info.request.date_to →
      (∀ h, info.request.preferred_end = some h → h ≤ 23) →
      (handle_more_free_slots_later busy' info).2 = .page →
      (handle_more_free_slots_later busy' info).1.request.cursor_history
          = info.request.cursor_history ++ [v] ∧
      (handle_more_free_slots_later busy' info).1.slots
          = find_slots busy' info.request.duration v info.request.date_to
              info.request.preferred_start info.request.preferred_end 3 ∧
      (handle_more_free_slots_later busy' info).1.request.date_to
          = info.request.date_to ∧
      (∀ s ∈ (handle_more_free_slots_later busy' info).1.slots,
        v ≤ s.start)) := by
  constructor
  · intro last_slot h
    simp only [handle_free_slots] at h ⊢
    rw [h]
  · intro info v hv hlt hpe hpage
    have hhE' : info.request.preferred_end.getD 20 ≤ 23 := by
      cases hq : info.request.preferred_end with
      | none => norm_num
      | some hh => simpa using hpe hh hq
    simp only [handle_more_free_slots_later, hv, Option.getD_some] at hpage ⊢
    rw [if_neg (by omega : ¬ info.request.date_to ≤ v)] at hpage ⊢
    cases hsl : (find_slots busy' info.request.duration v info.request.date_to
        info.request.preferred_start info.request.preferred_end 3).getLast? with
    | none =>
      rw [hsl] at hpage
      exact MoreSlotsReply.noConfusion hpage
    | some last_slot =>
      refine ⟨rfl, rfl, rfl, ?_⟩
      intro s hs
      obtain ⟨hmem, _, _⟩ := find_slots_loop_sound busy' info.request.duration
        v info.request.date_to (info.request.preferred_start.getD 8)
        (info.request.preferred_end.getD 20) hhE'
        (info.request.date_to + 1 - v) v 3
      have hs' : s ∈ find_slots busy' info.request.duration v
          info.request.date_to info.request.preferred_start
          info.request.preferred_end 3 := hs
      simp only [find_slots] at hs'
      exact (hmem s hs').2.2

/-- Witness for C6 at the spec's scenario: the first search returns a slot
ending at minute 840 (14:00), so the recorded next lower bound is 855
(14:15); "later" pushes 855 onto the cursor history. -/
theorem later_navigation_spec_witness :
    (handle_free_slots [(480, 780)] 60 480 1020 none none).slots.getLast?
        = some ⟨780, 840⟩ ∧
    (handle_free_slots [(480, 780)] 60 480 1020 none none).request.next_start
        = some 855 ∧
    (handle_more_free_slots_later []
        (handle_free_slots [(480, 780)] 60 480 1020 none none)).2
        = MoreSlotsReply.page ∧
    (handle_more_free_slots_later []
        (handle_free_slots [(480, 780)] 60 480 1020 none none)).1.request.cursor_history
      = (handle_free_slots [(480, 780)] 60 480 1020 none none).request.cursor_history
          ++ [855] := by
  have h := later_navigation_spec [(480, 780)] [] 60 480 1020 none none
  have h1 : (handle_free_slots [(480, 780)] 60 480 1020 none none).slots.getLast?
      = some ⟨780, 840⟩ := by decide
  have h2 := h.1 ⟨780, 840⟩ h1
  have hpage : (handle_more_free_slots_later []
      (handle_free_slots [(480, 780)] 60 480 1020 none none)).2
      = MoreSlotsReply.page := by decide
  have h3 := h.2 (handle_free_slots [(480, 780)] 60 480 1020 none none) 855
    h2 (by decide) (fun hh hq => by cases hq) hpage
  exact ⟨h1, h2, hpage, h3.1⟩

/-- Counterexample for C7 as stated: storing an update conflict and then a
create conflict (both reachable handler operations) leaves both pending
slots occupied, and a subsequent confirm consumes only the create conflict,
leaving the update conflict behind. -/
theorem pending_conflict_exclusivity_counterexample :
    at_most_one_pending_conflict
      (apply_conv_ops {}
        [ConvOp.store_update_conflict ⟨"ev1", {}, some 600, some 660, none⟩,
         ConvOp.store_create_conflict
           ⟨"standup", 600, 630, ⟨"review", 615, 645, "ev2"⟩⟩]) = false ∧
    (apply_conv_ops {}
        [ConvOp.store_update_conflict ⟨"ev1", {}, some 600, some 660, none⟩,
         ConvOp.store_create_conflict
           ⟨"standup", 600, 630, ⟨"review", 615, 645, "ev2"⟩⟩,
         ConvOp.callback CallbackData.conflict_confirm]).pending_update_conflict
      = some ⟨"ev1", {}, some 600, some 660, none⟩ := by
  exact ⟨rfl, rfl⟩

/-- Claim C7 (amended): storing a pending conflict of one kind leaves a
pending conflict of the other kind in place (so both kinds can be held
simultaneously); the cancel action clears both slots; the confirm action
consumes exactly one — the create conflict when present, otherwise the
update conflict. -/
theorem pending_conflict_slots_spec (st : ConvState)
    (c : PendingCreateConflict) (u : PendingUpdateConflict) :
    (set_pending_create_conflict st (some c)).pending_update_conflict
        = st.pending_update_conflict ∧
    (set_pending_create_conflict st (some c)).pending_create_conflict
        = some c ∧
    (set_pending_update_conflict st (some u)).pending_create_conflict
        = st.pending_create_conflict ∧
    (set_pending_update_conflict st (some u)).pending_update_conflict
        = some u ∧
    (handle_callback_query st .conflict_cancel).1.pending_create_conflict
        = none ∧
    (handle_callback_query st .conflict_cancel).1.pending_update_conflict
        = none ∧
    ((handle_callback_query st .conflict_confirm).1 =
      match st.pending_create_conflict with
      | some _ => { st with pending_create_conflict := none }
      | none => { st with pending_update_conflict := none }) := by
  refine ⟨rfl, rfl, rfl, rfl, rfl, rfl, ?_⟩
  cases hc : st.pending_create_conflict with
  | some p => simp [handle_callback_query, hc]
  | none =>
    cases hu : st.pending_update_conflict with
    | some q => simp [handle_callback_query, hc, hu]
    | none =>
      cases st
      simp_all [handle_callback_query]

/-- Claim C8: selecting disambiguation index `i` (for delete or update)
re-validates `i` against the current list length; a selection made after the
list has been consumed or cleared — including pressing the same index a
second time — is answered with the state-loss ("not found") reply and issues
no backend action; a valid selection performs exactly one update and consumes
the list, so an immediate second press of the same index is a state-loss
reply. -/
theorem disambiguation_revalidation (st : ConvState) (i : Nat) :
    ((st.pending_update_list.elim 0 fun ctx => ctx.items.length) ≤ i →
      handle_callback_query st (.update_index i)
        = ({ st with pending_update_detail := none }, [], .state_lost)) ∧
    (st.pending_delete_list.length ≤ i →
      handle_callback_query st (.delete_index i) = (st, [], .state_lost)) ∧
    (∀ ctx item, st.pending_update_list = some ctx →
      ctx.items[i]? = some item →
      handle_callback_query st (.update_index i)
        = ({ st with pending_update_detail := none, pending_update_list := none },
           [.update_event item.event_id], .done) ∧
      handle_callback_query
          { st with pending_update_detail := none, pending_update_list := none }
          (.update_index i)
        = ({ st with pending_update_detail := none, pending_update_list := none },
           [], .state_lost)) := by
  refine ⟨?_, ?_, ?_⟩
  · intro h
    cases hl : st.pending_update_list with
    | none => simp [handle_callback_query, hl]
    | some ctx =>
      have hnone : ctx.items[i]? = none := by
        apply List.getElem?_eq_none
        simpa [hl] using h
      simp [handle_callback_query, hl, hnone]
  · intro h
    have hnone : st.pending_delete_list[i]? = none := List.getElem?_eq_none h
    simp [handle_callback_query, hnone]
  · intro ctx item hl hi
    constructor
    · simp [handle_callback_query, hl, hi]
    · simp [handle_callback_query]

/-- Witness for C8: a one-item disambiguation list; the first press performs
the update and consumes the list, the second press of the same index is a
state-loss reply with no action, and an index against an empty delete list is
likewise rejected. -/
theorem disambiguation_revalidation_witness :
    handle_callback_query
        { pending_update_list := some ⟨[⟨"e1", "meeting"⟩], {}⟩ }
        (.update_index 0)
      = ({}, [BotAction.update_event "e1"], .done) ∧
    handle_callback_query ({} : ConvState) (.update_index 0)
      = ({}, [], .state_lost) ∧
    handle_callback_query ({} : ConvState) (.delete_index 0)
      = ({}, [], .state_lost) := by
  have h := disambiguation_revalidation
    { pending_update_list := some ⟨[⟨"e1", "meeting"⟩], {}⟩ } 0
  obtain ⟨h1, h2⟩ := h.2.2 ⟨[⟨"e1", "meeting"⟩], {}⟩ ⟨"e1", "meeting"⟩ rfl rfl
  exact ⟨h1, h2, (disambiguation_revalidation {} 0).2.1 (by simp)⟩

/-- Witness for C4 (amended) at a concrete input: a title-only patch on an
event occupying 10:00-11:00, with a neighbouring event 10:15-10:45 in the
fetched list, runs the check and aborts with that event's description. -/
theorem _apply_event_update_conflict_spec_witness :
    compute_new_times 0 (some 600) (some 660) { title := some "t" }
      = (some 600, some 660) ∧
    _detect_conflict [⟨"ev2", "review", none, some 615, some 645⟩] 600 660
        (some "ev1") = some ⟨"review", 615, 645, "ev2"⟩ ∧
    _apply_event_update 0 [⟨"ev2", "review", none, some 615, some 645⟩] "ev1"
        (some 600) (some 660) { title := some "t" } false
      = .error ⟨"review", 615, 645, "ev2"⟩ := by
  refine ⟨by decide, by decide, ?_⟩
  exact (_apply_event_update_conflict_spec 0
      [⟨"ev2", "review", none, some 615, some 645⟩] "ev1" (some 600) (some 660)
      { title := some "t" } {} none).2.2.1 600 660
    ⟨"review", 615, 645, "ev2"⟩ (by decide) (by decide)
